import Mathlib

/-!
# Conduit backend: a shallow embedding of the models and route handlers

The development follows the source files

* `models/User.js`     (passwords, tokens, favorites),
* `models/Article.js`  (slugs, the favorites counter),
* `routes/auth.js`     (extraction of the token from the header),
* `config/passport.js` and `routes/api/users.js` (login),
* `routes/api/articles.js` (update, favorite, unfavorite).

Mongo object ids are natural numbers, JavaScript strings are `String`
(lists of characters where an algorithm walks them), a collection is the
list of its documents, and a promise chain is the function it computes.
-/

namespace Conduit

/-! ## Data model -/

/-- A Mongo `ObjectId`; only equality of ids is ever used. -/
abbrev ObjectId := Nat

/-- A document of the `User` collection (`UserSchema` in `models/User.js`).
`hash` and `salt` are set by `setPassword` before a user is first saved. -/
structure User where
  _id : ObjectId
  username : String
  email : String
  bio : Option String
  image : Option String
  hash : String
  salt : String
  favorites : List ObjectId
  deriving DecidableEq, Repr

/-- A blank user with the given id, as `new User()` gives it. -/
def User.blank (i : ObjectId) : User :=
  { _id := i, username := "", email := "", bio := none, image := none,
    hash := "", salt := "", favorites := [] }

/-- A document of the `Article` collection (`ArticleSchema` in
`models/Article.js`).  A field that can be `undefined` is an `Option`;
`author` is the id of the owning user. -/
structure Article where
  _id : ObjectId
  slug : Option String
  title : Option String
  description : Option String
  body : Option String
  favoritesCount : Nat
  tagList : List String
  author : ObjectId
  deriving DecidableEq, Repr

/-! ## Favorites (`models/User.js`) -/

/-- JS `UserSchema.methods.favorite`, the change to the document:
`if (this.favorites.indexOf(id) === -1) this.favorites = this.favorites.concat([id])`. -/
def User.favorite (u : User) (id : ObjectId) : User :=
  if u.favorites.indexOf id = u.favorites.length then
    { u with favorites := u.favorites ++ [id] }
  else u

/-- The Mongoose array method `remove` (an alias of `pull`): every element
equal to the argument is spliced out, the others keep their order. -/
def mongooseRemove (xs : List ObjectId) (id : ObjectId) : List ObjectId :=
  xs.filter (fun x => !(x == id))

/-- JS `UserSchema.methods.unfavorite`: `this.favorites.remove(id)`. -/
def User.unfavorite (u : User) (id : ObjectId) : User :=
  { u with favorites := mongooseRemove u.favorites id }

/-- JS `UserSchema.methods.isFavorite`: `this.favorites.some(...)`. -/
def User.isFavorite (u : User) (id : ObjectId) : Bool :=
  u.favorites.any (fun favoriteId => favoriteId == id)

/-! ## The store and the favorite routes -/

/-- JS `User.findById(id)`: the first document with that id, or `null`. -/
def findById (users : List User) (id : ObjectId) : Option User :=
  users.find? (fun u => u._id == id)

/-- JS `user.save()`: the stored document with the id of `user` is replaced. -/
def saveUser (users : List User) (user : User) : List User :=
  users.map (fun u => if u._id = user._id then user else u)

/-- JS `User.count({favorites: {$in: [id]}})`: how many users have `id` among
their favorites. -/
def countFavorites (users : List User) (id : ObjectId) : Nat :=
  users.countP (fun u => u.favorites.contains id)

/-- JS `ArticleSchema.methods.updateFavoriteCount`: the count is queried and
written on the article. -/
def Article.updateFavoriteCount (users : List User) (article : Article) : Article :=
  { article with favoritesCount := countFavorites users article._id }

/-- The part of the database the favorite routes touch: the user
collection and the article `req.article` the route was called on. -/
structure Store where
  users : List User
  article : Article
  deriving DecidableEq, Repr

/-- The answer of a favorite or unfavorite route. -/
inductive FavResponse where
  | sendStatus (code : Nat)
  | json (article : Article)
  deriving DecidableEq, Repr

/-- JS `POST /:article/favorite` for the token payload id `payloadId`:
`findById`, then `user.favorite(articleId)`, then
`req.article.updateFavoriteCount()`. -/
def postFavorite (s : Store) (payloadId : ObjectId) : Store × FavResponse :=
  let articleId := s.article._id
  match findById s.users payloadId with
  | none => (s, FavResponse.sendStatus 401)
  | some user =>
    let users := saveUser s.users (user.favorite articleId)
    let article := s.article.updateFavoriteCount users
    ({ users := users, article := article }, FavResponse.json article)

/-- JS `DELETE /:article/favorite`: the same with `user.unfavorite(articleId)`. -/
def deleteFavorite (s : Store) (payloadId : ObjectId) : Store × FavResponse :=
  let articleId := s.article._id
  match findById s.users payloadId with
  | none => (s, FavResponse.sendStatus 401)
  | some user =>
    let users := saveUser s.users (user.unfavorite articleId)
    let article := s.article.updateFavoriteCount users
    ({ users := users, article := article }, FavResponse.json article)

/-- The identities `ids` call the favorite route one after the other. -/
def favoriteAll (s : Store) (ids : List ObjectId) : Store :=
  ids.foldl (fun st i => (postFavorite st i).1) s

/-- The identities `ids` call the unfavorite route one after the other. -/
def unfavoriteAll (s : Store) (ids : List ObjectId) : Store :=
  ids.foldl (fun st i => (deleteFavorite st i).1) s

/-! ## The token header (`routes/auth.js`) -/

/-- JS `String.prototype.split` with a one-character separator, on the list
of characters: the pieces between the separators, the empty ones included. -/
def splitChars (sep : Char) : List Char → List (List Char)
  | [] => [[]]
  | c :: cs =>
    if c = sep then [] :: splitChars sep cs
    else
      match splitChars sep cs with
      | [] => [[c]]
      | w :: ws => (c :: w) :: ws

/-- JS `s.split(sep)` for a one-character separator. -/
def jsSplit (s : String) (sep : Char) : List String :=
  (splitChars sep s.data).map String.mk

/-- What `getTokenFromHeader` can return: `null`, `undefined` (an index past
the end of the split array) or a string. -/
inductive TokenResult where
  | null
  | undefined
  | string (s : String)
  deriving DecidableEq, Repr

/-- JS `getTokenFromHeader(req)`, as a function of `req.headers.authorization`
(`none` when the header is absent).  The empty string is falsy. -/
def getTokenFromHeader (authorization : Option String) : TokenResult :=
  match authorization with
  | none => TokenResult.null
  | some h =>
    if h ≠ "" ∧ (jsSplit h ' ')[0]? = some "Token" then
      match (jsSplit h ' ')[1]? with
      | some t => TokenResult.string t
      | none => TokenResult.undefined
    else TokenResult.null

/-! ## Slugs (`models/Article.js`) -/

/-- An exception thrown by the JavaScript runtime or by a library. -/
inductive JsError where
  | typeError (message : String)
  deriving DecidableEq, Repr

/-- The digit characters of `Number.prototype.toString(36)`:
`0`-`9` for 0-9 and `a`-`z` for 10-35. -/
def digitChar36 (d : Nat) : Char :=
  if d < 10 then Char.ofNat (48 + d) else Char.ofNat (87 + d)

/-- Repeated division by 36, the last digit first onto the accumulator
(the first argument bounds the number of digits). -/
def toDigits36 : Nat → Nat → List Char → List Char
  | 0, _, acc => acc
  | fuel + 1, n, acc =>
    let acc1 := digitChar36 (n % 36) :: acc
    if n / 36 = 0 then acc1 else toDigits36 fuel (n / 36) acc1

/-- A natural number in base 36; a number never has more digits than its
value plus one. -/
def natToString36 (n : Nat) : List Char :=
  toDigits36 (n + 1) n []

/-- JS `(x).toString(36)` for an integer `x`: a minus sign before the digits
of a negative number. -/
def intToString36 (x : Int) : List Char :=
  if x < 0 then '-' :: natToString36 x.natAbs else natToString36 x.natAbs

/-- JS `x | 0` on an integral number: the value is reduced modulo `2^32` into
the signed 32-bit range (`ToInt32`). -/
def toInt32 (x : Int) : Int :=
  let m := x % 2 ^ 32
  if m ≥ 2 ^ 31 then m - 2 ^ 32 else m

/-- JS `Math.random() * Math.pow(36, 6) | 0` where `Math.random()` returned the
fraction `num / den`: the product is cut to its integral part and then
to 32 bits.  The product is taken exactly. -/
def randomInt (num den : Nat) : Int :=
  toInt32 (((num * 36 ^ 6 / den : Nat) : Int))

/-- The random suffix `(Math.random() * Math.pow(36, 6) | 0).toString(36)`. -/
def slugSuffix (num den : Nat) : List Char :=
  intToString36 (randomInt num den)

/-- The setter of a schema string with `lowercase: true`
(`String.prototype.toLowerCase`, here on ASCII letters). -/
def toLowerCase (s : String) : String :=
  String.mk (s.data.map Char.toLower)

/-- JS `ArticleSchema.methods.slugify`:
`this.slug = slug(this.title) + '-' + (...).toString(36)`, stored through
the lowercase setter of the schema.  `slug` is the function of the `slug`
package, which throws on an `undefined` title. -/
def Article.slugify (slug : String → String) (num den : Nat) (a : Article) :
    Except JsError Article :=
  match a.title with
  | none => Except.error (JsError.typeError "slug: not a string")
  | some title =>
    Except.ok { a with
      slug := some (toLowerCase (slug title ++ "-" ++ String.mk (slugSuffix num den))) }

/-- The hook `ArticleSchema.pre('validate', ...)`:
`if (!this.slug) this.slugify(); next()`.  An absent slug and the empty
string are falsy. -/
def Article.preValidate (slug : String → String) (num den : Nat) (a : Article) :
    Except JsError Article :=
  if a.slug = none ∨ a.slug = some "" then a.slugify slug num den else Except.ok a

/-- JS `article.save()`: the hook runs and the document it leaves is stored;
an exception in the hook rejects the save. -/
def Article.save (slug : String → String) (num den : Nat) (a : Article) :
    Except JsError Article :=
  a.preValidate slug num den

/-- The body `req.body.article` of an update request: a field that is not
sent is `undefined`. -/
structure ArticleUpdate where
  title : Option String
  description : Option String
  body : Option String
  deriving DecidableEq, Repr

/-- The outcome of `PUT /:article`. -/
inductive PutResponse where
  | json (article : Article)
  | sendStatus (code : Nat)
  | next (err : JsError)
  deriving DecidableEq, Repr

/-- JS `PUT /:article` on the article `req.article` for the token payload id
`payloadId`: the sent fields are copied and the article is saved when the
caller is the author, otherwise the answer is 403. -/
def putArticle (slug : String → String) (num den : Nat) (payloadId : ObjectId)
    (upd : ArticleUpdate) (article : Article) : PutResponse :=
  if article.author = payloadId then
    let a1 := match upd.title with
      | some t => { article with title := some t }
      | none => article
    let a2 := match upd.description with
      | some d => { a1 with description := some d }
      | none => a1
    let a3 := match upd.body with
      | some b => { a2 with body := some b }
      | none => a2
    match a3.save slug num den with
    | Except.ok saved => PutResponse.json saved
    | Except.error e => PutResponse.next e
  else PutResponse.sendStatus 403

/-- Modelled from the spec: the function `slug` of the npm package of that
name, which is not part of the repository.  The spec says it "lowercases
and dash-normalizes the title into a URL-safe token": the letters and
digits are kept in lower case and every run of other characters between
two words becomes one dash. -/
def slugModel (title : String) : String :=
  let cs := title.data.map (fun c => if c.isAlphanum then c.toLower else ' ')
  String.mk (List.intercalate ['-'] ((splitChars ' ' cs).filter (fun w => !w.isEmpty)))

/-- The characters `[0-9a-z]`. -/
def isBase36Char (c : Char) : Bool :=
  c.isDigit || c.isLower

/-! ## Passwords (`models/User.js`) -/

/-- A byte of a Node `Buffer`. -/
abbrev Byte := Fin 256

/-- The two functions of Node's `crypto` module that the models call.
`randomBytes n` is the buffer the random source hands out for a request of
`n` bytes; `pbkdf2Sync password salt iterations keylen digest` is the
derived key, where Node counts `keylen` in bytes. -/
structure Crypto where
  randomBytes : Nat → List Byte
  pbkdf2Sync : String → String → Nat → Nat → String → List Byte

/-- The contract of the two `crypto` functions on the length of their
result: as many bytes as were asked for. -/
def Crypto.Lawful (c : Crypto) : Prop :=
  (∀ n, (c.randomBytes n).length = n) ∧
  (∀ password salt iterations keylen digest,
    (c.pbkdf2Sync password salt iterations keylen digest).length = keylen)

/-- A hexadecimal digit of `Buffer.prototype.toString('hex')`. -/
def hexDigit (d : Nat) : Char :=
  if d < 10 then Char.ofNat (48 + d) else Char.ofNat (87 + d)

/-- Two hexadecimal digits for each byte. -/
def hexChars : List Byte → List Char
  | [] => []
  | b :: bs => hexDigit (b.val / 16) :: hexDigit (b.val % 16) :: hexChars bs

/-- JS `buffer.toString('hex')`. -/
def toHex (bytes : List Byte) : String :=
  String.mk (hexChars bytes)

/-- JS `UserSchema.methods.setPassword`:
`this.salt = crypto.randomBytes(16).toString('hex')` and
`this.hash = crypto.pbkdf2Sync(password, this.salt, 10000, 512, 'sha512').toString('hex')`. -/
def User.setPassword (c : Crypto) (u : User) (password : String) : User :=
  let salt := toHex (c.randomBytes 16)
  let hash := toHex (c.pbkdf2Sync password salt 10000 512 "sha512")
  { u with salt := salt, hash := hash }

/-- JS `UserSchema.methods.validPassword`: the hash is derived again from the
stored salt and compared with the stored hash. -/
def User.validPassword (c : Crypto) (u : User) (password : String) : Bool :=
  let hash := toHex (c.pbkdf2Sync password u.salt 10000 512 "sha512")
  hash == u.hash

/-! ## Login (`config/passport.js`, `routes/api/users.js`) -/

/-- A JSON body `{errors: {field: message}}`. -/
structure ErrorBody where
  errors : List (String × String)
  deriving DecidableEq, Repr

/-- How the verify callback of the local strategy calls `done`:
`done(err)`, `done(null, false, info)` or `done(null, user)`. -/
inductive Done where
  | error (err : JsError)
  | fail (info : ErrorBody)
  | success (user : User)
  deriving DecidableEq, Repr

/-- JS `User.findOne({email: email})`: the first user with that email, or
`null`. -/
def findOne (users : List User) (email : String) : Option User :=
  users.find? (fun u => u.email == email)

/-- The method call `user.validPassword(password)` on the result of
`findOne`: on `null` the property access throws a `TypeError`. -/
def callValidPassword (c : Crypto) (user : Option User) (password : String) :
    Except JsError Bool :=
  match user with
  | none => Except.error (JsError.typeError "Cannot read property 'validPassword' of null")
  | some u => Except.ok (u.validPassword c password)

/-- The function passed to `.then` in the verify callback, statement by
statement: the `console.log("user:", user.validPassword(password))` line,
then `if (!user || !user.validPassword(password))` with its two `done`
calls. -/
def verifyThen (c : Crypto) (user : Option User) (password : String) : Except JsError Done := do
  let _logged ← callValidPassword c user password
  match user with
  | none => pure (Done.fail { errors := [("email or password", "is invalid")] })
  | some u =>
    if !(← callValidPassword c (some u) password) then
      pure (Done.fail { errors := [("email or password", "is invalid")] })
    else
      pure (Done.success u)

/-- The verify callback of the `LocalStrategy`:
`User.findOne({email}).then(...).catch(done)`; an exception in the `then`
function reaches `done` as its error argument. -/
def localVerify (c : Crypto) (users : List User) (email password : String) : Done :=
  match verifyThen c (findOne users email) password with
  | Except.ok d => d
  | Except.error e => Done.error e

/-- The outcome of `POST /users/login`: a status with an error body, the
JSON of the logged-in user, or `next(err)`. -/
inductive LoginResponse where
  | status (code : Nat) (body : ErrorBody)
  | json (user : User)
  | next (err : JsError)
  deriving DecidableEq, Repr

/-- JS `POST /users/login` on `req.body.user.email` and
`req.body.user.password` (`none` when not sent): the two blank checks, then
`passport.authenticate('local', ...)` with the callback of the route. -/
def login (c : Crypto) (users : List User) (email password : Option String) : LoginResponse :=
  match email with
  | none => LoginResponse.status 422 { errors := [("email", "can't be blank")] }
  | some e =>
    if e = "" then LoginResponse.status 422 { errors := [("email", "can't be blank")] }
    else
      match password with
      | none => LoginResponse.status 422 { errors := [("password", "can't be blank")] }
      | some p =>
        if p = "" then LoginResponse.status 422 { errors := [("password", "can't be blank")] }
        else
          match localVerify c users e p with
          | Done.error err => LoginResponse.next err
          | Done.success user => LoginResponse.json user
          | Done.fail info => LoginResponse.status 422 info

/-! ## Tokens (`models/User.js`): the `Date` arithmetic of `generateJWT`

Time values are integers, the milliseconds since the epoch, and `none`
stands for `NaN`.  The definitions are the abstract operations of the
language standard under their names there. -/

/-- The milliseconds of a day. -/
def msPerDay : Int := 86400000

/-- JS `Day(t)`: the day number of a time value. -/
def Day (t : Int) : Int := t / msPerDay

/-- JS `TimeWithinDay(t)`. -/
def TimeWithinDay (t : Int) : Int := t % msPerDay

/-- JS `DaysInYear(y)`. -/
def DaysInYear (y : Int) : Int :=
  if y % 4 ≠ 0 then 365
  else if y % 100 ≠ 0 then 366
  else if y % 400 ≠ 0 then 365
  else 366

/-- JS `DayFromYear(y)`: the day number of the first day of year `y`. -/
def DayFromYear (y : Int) : Int :=
  365 * (y - 1970) + (y - 1969) / 4 - (y - 1901) / 100 + (y - 1601) / 400

/-- The search of `YearFromTime`: the year goes up while the next year
starts on or before day `d`. -/
def yearSearch : Nat → Int → Int → Int
  | 0, y, _ => y
  | fuel + 1, y, d => if DayFromYear (y + 1) ≤ d then yearSearch fuel (y + 1) d else y

/-- JS `YearFromTime(t)`: the largest year that starts at or before `t`,
searched upwards from a year that starts at or before `t` (the bound of
the search covers the whole range of time values). -/
def YearFromTime (t : Int) : Int :=
  let d := Day t
  let y0 := if 0 ≤ d then 1970 + d / 366 else 1970 + d / 365
  yearSearch 1000 y0 d

/-- JS `InLeapYear(t)`: 1 in a leap year and 0 otherwise. -/
def InLeapYear (t : Int) : Int :=
  if DaysInYear (YearFromTime t) = 366 then 1 else 0

/-- JS `DayWithinYear(t)`. -/
def DayWithinYear (t : Int) : Int :=
  Day t - DayFromYear (YearFromTime t)

/-- JS `MonthFromTime(t)`: 0 for January up to 11 for December. -/
def MonthFromTime (t : Int) : Int :=
  let d := DayWithinYear t
  let l := InLeapYear t
  if d < 31 then 0
  else if d < 59 + l then 1
  else if d < 90 + l then 2
  else if d < 120 + l then 3
  else if d < 151 + l then 4
  else if d < 181 + l then 5
  else if d < 212 + l then 6
  else if d < 243 + l then 7
  else if d < 273 + l then 8
  else if d < 304 + l then 9
  else if d < 334 + l then 10
  else 11

/-- The day within the year on which month `m` starts, `l` being 1 in a
leap year. -/
def monthStart (m l : Int) : Int :=
  if m = 0 then 0
  else if m = 1 then 31
  else if m = 2 then 59 + l
  else if m = 3 then 90 + l
  else if m = 4 then 120 + l
  else if m = 5 then 151 + l
  else if m = 6 then 181 + l
  else if m = 7 then 212 + l
  else if m = 8 then 243 + l
  else if m = 9 then 273 + l
  else if m = 10 then 304 + l
  else 334 + l

/-- JS `DateFromTime(t)`: the day of the month, from 1. -/
def DateFromTime (t : Int) : Int :=
  DayWithinYear t - monthStart (MonthFromTime t) (InLeapYear t) + 1

/-- JS `MakeDay(year, month, date)`: the day number of day `date` of the
month, where `date` may run over the end of the month. -/
def MakeDay (year month date : Int) : Int :=
  let ym := year + month / 12
  let mn := month % 12
  DayFromYear ym + monthStart mn (if DaysInYear ym = 366 then 1 else 0) + date - 1

/-- JS `MakeDate(day, time)`. -/
def MakeDate (day time : Int) : Int := day * msPerDay + time

/-- JS `TimeClip(time)`: `NaN` outside the range of time values. -/
def TimeClip (time : Int) : Option Int :=
  if time.natAbs > 8640000000000000 then none else some time

/-- JS `LocalTime(t)` for the local time zone adjustment `tza`, which takes a
time value and whether it is UTC. -/
def LocalTime (tza : Int → Bool → Int) (t : Int) : Int := t + tza t true

/-- JS `UTC(t)` of a local time value. -/
def UTC (tza : Int → Bool → Int) (t : Int) : Int := t - tza t false

/-- JS `Date.prototype.getDate()`. -/
def getDate (tza : Int → Bool → Int) (t : Int) : Int :=
  DateFromTime (LocalTime tza t)

/-- JS `Date.prototype.setDate(date)`: the new time value of the object. -/
def setDate (tza : Int → Bool → Int) (thisTime : Int) (date : Int) : Option Int :=
  let t := LocalTime tza thisTime
  let newDate := MakeDate (MakeDay (YearFromTime t) (MonthFromTime t) date) (TimeWithinDay t)
  TimeClip (UTC tza newDate)

/-- The claims object `generateJWT` passes to `jwt.sign`. -/
structure JwtClaims where
  id : ObjectId
  username : String
  exp : Option Int
  deriving DecidableEq, Repr

/-- JS `UserSchema.methods.generateJWT` up to the call of `jwt.sign`, for the
time zone of the process and the time value `now` of `new Date()`:
`exp.setDate(today.getDate() + 60)` and
`exp: parseInt(exp.getTime() / 1000)`. -/
def User.generateJWT (tza : Int → Bool → Int) (now : Nat) (u : User) : JwtClaims :=
  let today : Int := now
  let exp := setDate tza today (getDate tza today + 60)
  { id := u._id
    username := u.username
    exp := exp.map (fun ms => Int.tdiv ms 1000) }

/-! ## Sample data -/

/-- A user `ana` with id 1 who has favorited the articles 7 and 9. -/
def ana : User :=
  { User.blank 1 with username := "ana", email := "ana@example.com", favorites := [7, 9] }

/-- A user `bob` with id 2 and no favorites. -/
def bob : User :=
  { User.blank 2 with username := "bob", email := "bob@example.com" }

/-- A user `cy` with id 3 and no favorites. -/
def cy : User :=
  { User.blank 3 with username := "cy", email := "cy@example.com" }

/-- An article with id 5, written by `ana`, already saved under a slug. -/
def hello : Article :=
  { _id := 5, slug := some "hello-world-1a2b3c", title := some "Hello World",
    description := none, body := none, favoritesCount := 0, tagList := [], author := 1 }

/-- A store with three users, none of whom has favorited `hello`. -/
def store0 : Store := { users := [ana, bob, cy], article := hello }

/-- A new article with a title and no slug yet. -/
def draft : Article :=
  { _id := 6, slug := none, title := some "My Title!", description := none, body := none,
    favoritesCount := 0, tagList := [], author := 1 }

/-- A toy `crypto` module: zero bytes from the random source and a key
whose bytes are the sum of the lengths of password and salt. -/
def toyCrypto : Crypto :=
  { randomBytes := fun n => List.replicate n 0
    pbkdf2Sync := fun password salt _ keylen _ =>
      List.replicate keylen (Fin.ofNat (password.length + salt.length)) }

/-- The user `ana` after `setPassword("p@ss1234")` with the toy module. -/
def anaRegistered : User := ana.setPassword toyCrypto "p@ss1234"

/-- No time zone adjustment: the process runs in UTC. -/
def utcTZA : Int → Bool → Int := fun _ _ => 0

/-- The time zone adjustment of Europe/London in 2019: one hour of summer
time from 31 March 01:00 UTC to 27 October 01:00 UTC. -/
def londonTZA : Int → Bool → Int := fun t isUTC =>
  let shift : Int := if isUTC then 0 else 3600000
  if 1553994000000 + shift ≤ t ∧ t < 1572138000000 + shift then 3600000 else 0

/-! # Theorems -/

/-! ## Favorites -/

theorem favorite_favorites (u : User) (id : ObjectId) :
    (u.favorite id).favorites = if id ∈ u.favorites then u.favorites else u.favorites ++ [id] := by
  unfold User.favorite
  by_cases h : id ∈ u.favorites
  · have : ¬ (List.indexOf id u.favorites = u.favorites.length) := by
      rw [List.indexOf_eq_length]; simpa using h
    simp [this, h]
  · have : List.indexOf id u.favorites = u.favorites.length := by
      rw [List.indexOf_eq_length]; exact h
    simp [this, h]

theorem favorite_of_mem (u : User) (id : ObjectId) (h : id ∈ u.favorites) :
    u.favorite id = u := by
  unfold User.favorite
  have : ¬ (List.indexOf id u.favorites = u.favorites.length) := by
    rw [List.indexOf_eq_length]; simpa using h
  simp [this]

theorem mem_favorite (u : User) (id : ObjectId) : id ∈ (u.favorite id).favorites := by
  rw [favorite_favorites]
  split <;> simp_all

theorem favorite_id (u : User) (id : ObjectId) : (u.favorite id)._id = u._id := by
  unfold User.favorite; split <;> rfl

theorem unfavorite_id (u : User) (id : ObjectId) : (u.unfavorite id)._id = u._id := rfl

theorem mem_favorite_iff (u : User) (id x : ObjectId) :
    x ∈ (u.favorite id).favorites ↔ x = id ∨ x ∈ u.favorites := by
  rw [favorite_favorites]
  split
  · constructor
    · intro h; exact Or.inr h
    · rintro (h | h)
      · subst h; assumption
      · exact h
  · simp [or_comm]

theorem mem_unfavorite_iff (u : User) (id x : ObjectId) :
    x ∈ (u.unfavorite id).favorites ↔ x ≠ id ∧ x ∈ u.favorites := by
  simp [User.unfavorite, mongooseRemove, and_comm]

theorem unfavorite_unfavorite (u : User) (id : ObjectId) :
    (u.unfavorite id).unfavorite id = u.unfavorite id := by
  simp [User.unfavorite, mongooseRemove]

/-- C1: `favorite` is idempotent.  A second call with the same id leaves the
favorites list (indeed the whole document) as the first call left it, and a
call with an id that is already in the list changes nothing, so that no
duplicate is added: the id occurs as often as before. -/
theorem favorite_idempotent (u : User) (id : ObjectId) :
    ((u.favorite id).favorite id).favorites = (u.favorite id).favorites ∧
    (u.favorite id).favorite id = u.favorite id ∧
    (id ∈ u.favorites → (u.favorite id).favorites = u.favorites ∧
        (u.favorite id).favorites.count id = u.favorites.count id) := by
  have h1 : (u.favorite id).favorite id = u.favorite id :=
    favorite_of_mem _ _ (mem_favorite u id)
  refine ⟨by rw [h1], h1, ?_⟩
  intro h
  rw [favorite_of_mem u id h]
  exact ⟨rfl, rfl⟩

theorem favorite_idempotent_witness :
    (7 ∈ ana.favorites) ∧ (ana.favorite 7).favorites = [7, 9] ∧
    ((ana.favorite 7).favorite 7).favorites = (ana.favorite 7).favorites :=
  ⟨by decide, ((favorite_idempotent ana 7).2.2 (by decide)).1, (favorite_idempotent ana 7).1⟩

/-- C10: `unfavorite` removes the id when it is present: afterwards the id is
not in the list, the list is a sublist of the old one (the order is kept)
and every other id occurs as often as before.  When the id is absent the
document is unchanged, and a second call changes nothing more. -/
theorem unfavorite_spec (u : User) (id : ObjectId) :
    id ∉ (u.unfavorite id).favorites ∧
    List.Sublist (u.unfavorite id).favorites u.favorites ∧
    (∀ x, x ≠ id → (u.unfavorite id).favorites.count x = u.favorites.count x) ∧
    (id ∉ u.favorites → u.unfavorite id = u) ∧
    (u.unfavorite id).unfavorite id = u.unfavorite id := by
  refine ⟨?_, ?_, ?_, ?_, ?_⟩
  · simp [mem_unfavorite_iff]
  · exact List.filter_sublist _
  · intro x hx
    simp only [User.unfavorite, mongooseRemove]
    rw [List.count_filter]
    simpa using hx
  · intro h
    have : mongooseRemove u.favorites id = u.favorites := by
      unfold mongooseRemove
      rw [List.filter_eq_self]
      intro a ha
      have : a ≠ id := fun e => h (e ▸ ha)
      simpa using this
    cases u
    simp_all [User.unfavorite]
  · simp [User.unfavorite, mongooseRemove]

theorem unfavorite_spec_witness :
    (ana.unfavorite 7).favorites = [9] ∧ bob.unfavorite 7 = bob ∧
    (ana.unfavorite 9).favorites.count 7 = ana.favorites.count 7 :=
  ⟨by decide, (unfavorite_spec bob 7).2.2.2.1 (by decide),
   (unfavorite_spec ana 9).2.2.1 7 (by decide)⟩

/-! ## The favorites counter -/

theorem map_ids_congr (users : List User) (f : User → User) (hf : ∀ u, (f u)._id = u._id) :
    (users.map f).map (fun u => u._id) = users.map (fun u => u._id) := by
  simp [List.map_map, Function.comp_def, hf]

theorem saveUser_found (users : List User) (i : ObjectId) (f : User → User)
    (hf : ∀ u, (f u)._id = u._id)
    (hnd : (users.map (fun u => u._id)).Nodup) (x : User) (hx : findById users i = some x) :
    saveUser users (f x) = users.map (fun u => if u._id = i then f u else u) := by
  have hxmem : x ∈ users := List.mem_of_find?_eq_some hx
  have hxid : x._id = i := by
    have := List.find?_some hx
    simpa using this
  unfold saveUser
  apply List.map_congr_left
  intro u hu
  rw [hf x, hxid]
  by_cases h : u._id = i
  · have : u = x := List.inj_on_of_nodup_map hnd hu hxmem (by rw [h, hxid])
    simp [h, this]
  · simp [h]

theorem map_not_found (users : List User) (i : ObjectId) (f : User → User)
    (hx : findById users i = none) :
    users.map (fun u => if u._id = i then f u else u) = users := by
  have h := List.find?_eq_none.1 hx
  conv_rhs => rw [← List.map_id users]
  apply List.map_congr_left
  intro u hu
  have := h u hu
  simp at this
  simp [this]

theorem postFavorite_users (s : Store) (i : ObjectId)
    (hnd : (s.users.map (fun u => u._id)).Nodup) :
    (postFavorite s i).1.users =
      s.users.map (fun u => if u._id = i then u.favorite s.article._id else u) := by
  unfold postFavorite
  cases h : findById s.users i with
  | none => simp only; rw [map_not_found _ _ _ h]
  | some x =>
    simp only
    exact saveUser_found s.users i (fun u => u.favorite s.article._id)
      (fun u => favorite_id u _) hnd x h

theorem deleteFavorite_users (s : Store) (i : ObjectId)
    (hnd : (s.users.map (fun u => u._id)).Nodup) :
    (deleteFavorite s i).1.users =
      s.users.map (fun u => if u._id = i then u.unfavorite s.article._id else u) := by
  unfold deleteFavorite
  cases h : findById s.users i with
  | none => simp only; rw [map_not_found _ _ _ h]
  | some x =>
    simp only
    exact saveUser_found s.users i (fun u => u.unfavorite s.article._id)
      (fun u => unfavorite_id u _) hnd x h

theorem postFavorite_article_id (s : Store) (i : ObjectId) :
    (postFavorite s i).1.article._id = s.article._id := by
  unfold postFavorite
  cases findById s.users i <;> rfl

theorem deleteFavorite_article_id (s : Store) (i : ObjectId) :
    (deleteFavorite s i).1.article._id = s.article._id := by
  unfold deleteFavorite
  cases findById s.users i <;> rfl

theorem favoriteAll_spec (ids : List ObjectId) (s : Store)
    (hnd : (s.users.map (fun u => u._id)).Nodup) :
    (favoriteAll s ids).users =
      s.users.map (fun u => if u._id ∈ ids then u.favorite s.article._id else u) ∧
    (favoriteAll s ids).article._id = s.article._id := by
  induction ids generalizing s with
  | nil => simp [favoriteAll]
  | cons i rest ih =>
    have hu := postFavorite_users s i hnd
    have ha := postFavorite_article_id s i
    have hnd1 : ((postFavorite s i).1.users.map (fun u => u._id)).Nodup := by
      rw [hu, map_ids_congr]
      · exact hnd
      · intro u; split
        · exact favorite_id u _
        · rfl
    have h := ih (postFavorite s i).1 hnd1
    have hstep : favoriteAll s (i :: rest) = favoriteAll (postFavorite s i).1 rest := rfl
    rw [hstep, h.1, h.2, ha, hu, List.map_map]
    refine ⟨?_, rfl⟩
    apply List.map_congr_left
    intro u _
    simp only [Function.comp_apply, List.mem_cons]
    by_cases h1 : u._id = i
    · by_cases h2 : u._id ∈ rest
      · simp [h1, h2, favorite_id, favorite_of_mem _ _ (mem_favorite u s.article._id)]
      · simp only [h1, if_true, favorite_id, true_or]
        rw [← h1, if_neg h2]
    · by_cases h2 : u._id ∈ rest
      · simp [h1, h2]
      · simp [h1, h2]

theorem unfavoriteAll_spec (ids : List ObjectId) (s : Store)
    (hnd : (s.users.map (fun u => u._id)).Nodup) :
    (unfavoriteAll s ids).users =
      s.users.map (fun u => if u._id ∈ ids then u.unfavorite s.article._id else u) ∧
    (unfavoriteAll s ids).article._id = s.article._id := by
  induction ids generalizing s with
  | nil => simp [unfavoriteAll]
  | cons i rest ih =>
    have hu := deleteFavorite_users s i hnd
    have ha := deleteFavorite_article_id s i
    have hnd1 : ((deleteFavorite s i).1.users.map (fun u => u._id)).Nodup := by
      rw [hu, map_ids_congr]
      · exact hnd
      · intro u; split <;> rfl
    have h := ih (deleteFavorite s i).1 hnd1
    have hstep : unfavoriteAll s (i :: rest) = unfavoriteAll (deleteFavorite s i).1 rest := rfl
    rw [hstep, h.1, h.2, ha, hu, List.map_map]
    refine ⟨?_, rfl⟩
    apply List.map_congr_left
    intro u _
    simp only [Function.comp_apply, List.mem_cons]
    by_cases h1 : u._id = i
    · by_cases h2 : u._id ∈ rest
      · have h3 : i ∈ rest := h1 ▸ h2
        simp [h1, h3, unfavorite_id, unfavorite_unfavorite]
      · have h3 : i ∉ rest := h1 ▸ h2
        simp [h1, h3, unfavorite_id]
    · by_cases h2 : u._id ∈ rest
      · simp [h1, h2]
      · simp [h1, h2]

/-- After the favorite route the stored counter is the number of users who
have the article among their favorites, when the caller is a user of the
store or the counter was already that number. -/
theorem postFavorite_inStep (s : Store) (i : ObjectId)
    (h : (i ∈ s.users.map (fun u => u._id)) ∨
      s.article.favoritesCount = countFavorites s.users s.article._id) :
    (postFavorite s i).1.article.favoritesCount =
      countFavorites (postFavorite s i).1.users (postFavorite s i).1.article._id := by
  unfold postFavorite
  cases hf : findById s.users i with
  | none =>
    simp only
    rcases h with h | h
    · exfalso
      have h0 := List.find?_eq_none.1 hf
      rcases List.mem_map.1 h with ⟨u, hu, hid⟩
      have := h0 u hu
      simp [hid] at this
    · exact h
  | some x => rfl

theorem deleteFavorite_inStep (s : Store) (i : ObjectId)
    (h : (i ∈ s.users.map (fun u => u._id)) ∨
      s.article.favoritesCount = countFavorites s.users s.article._id) :
    (deleteFavorite s i).1.article.favoritesCount =
      countFavorites (deleteFavorite s i).1.users (deleteFavorite s i).1.article._id := by
  unfold deleteFavorite
  cases hf : findById s.users i with
  | none =>
    simp only
    rcases h with h | h
    · exfalso
      have h0 := List.find?_eq_none.1 hf
      rcases List.mem_map.1 h with ⟨u, hu, hid⟩
      have := h0 u hu
      simp [hid] at this
    · exact h
  | some x => rfl

theorem favoriteAll_inStep (ids : List ObjectId) (s : Store)
    (h : s.article.favoritesCount = countFavorites s.users s.article._id) :
    (favoriteAll s ids).article.favoritesCount =
      countFavorites (favoriteAll s ids).users (favoriteAll s ids).article._id := by
  induction ids generalizing s with
  | nil => exact h
  | cons i rest ih => exact ih _ (postFavorite_inStep s i (Or.inr h))

theorem unfavoriteAll_inStep (ids : List ObjectId) (s : Store)
    (h : s.article.favoritesCount = countFavorites s.users s.article._id) :
    (unfavoriteAll s ids).article.favoritesCount =
      countFavorites (unfavoriteAll s ids).users (unfavoriteAll s ids).article._id := by
  induction ids generalizing s with
  | nil => exact h
  | cons i rest ih => exact ih _ (deleteFavorite_inStep s i (Or.inr h))

theorem length_filter_mem_of_nodup (ids unf : List ObjectId) (hunf : unf.Nodup)
    (hids : ids.Nodup) (hsub : ∀ i ∈ unf, i ∈ ids) :
    (ids.filter (fun x => decide (x ∈ unf))).length = unf.length := by
  apply List.Perm.length_eq
  rw [List.perm_ext_iff_of_nodup (hids.filter _) hunf]
  intro a
  simp only [List.mem_filter, decide_eq_true_eq]
  exact ⟨fun h => h.2, fun h => ⟨hsub a h, h⟩⟩

theorem countP_ids (uids ids unf : List ObjectId) (huids : uids.Nodup) (hids : ids.Nodup)
    (hsub : ∀ i ∈ ids, i ∈ uids) (hunf : unf.Nodup) (hunfsub : ∀ i ∈ unf, i ∈ ids) :
    uids.countP (fun x => decide (x ∈ ids ∧ x ∉ unf)) = ids.length - unf.length := by
  rw [List.countP_eq_length_filter]
  have h1 : (uids.filter (fun x => decide (x ∈ ids ∧ x ∉ unf))).length =
      (ids.filter (fun x => decide (x ∉ unf))).length := by
    apply List.Perm.length_eq
    rw [List.perm_ext_iff_of_nodup (huids.filter _) (hids.filter _)]
    intro a
    simp only [List.mem_filter, decide_eq_true_eq]
    exact ⟨fun h => h.2, fun h => ⟨hsub a h.1, h⟩⟩
  have h2 := length_filter_mem_of_nodup ids unf hunf hids hunfsub
  have h3 : (ids.filter (fun x => decide (x ∈ unf))).length +
      (ids.filter (fun x => decide (x ∉ unf))).length = ids.length := by
    have := List.length_eq_countP_add_countP (fun x => decide (x ∈ unf)) ids
    rw [List.countP_eq_length_filter, List.countP_eq_length_filter] at this
    rw [this]
    congr 2
    apply List.filter_congr
    intro x _
    simp
  omega

theorem countFavorites_final (s : Store) (ids unf : List ObjectId)
    (hnd : (s.users.map (fun u => u._id)).Nodup)
    (hfresh : ∀ u ∈ s.users, s.article._id ∉ u.favorites)
    (hids : ids.Nodup) (hsub : ∀ i ∈ ids, i ∈ s.users.map (fun u => u._id))
    (hunf : unf.Nodup) (hunfsub : ∀ i ∈ unf, i ∈ ids) :
    countFavorites (unfavoriteAll (favoriteAll s ids) unf).users s.article._id =
      ids.length - unf.length := by
  have hf := favoriteAll_spec ids s hnd
  have hnd1 : ((favoriteAll s ids).users.map (fun u => u._id)).Nodup := by
    rw [hf.1, map_ids_congr]
    · exact hnd
    · intro u; split
      · exact favorite_id u _
      · rfl
  have hu := unfavoriteAll_spec unf (favoriteAll s ids) hnd1
  rw [hu.1, hf.2, hf.1, List.map_map]
  unfold countFavorites
  rw [List.countP_map]
  rw [← countP_ids (s.users.map (fun u => u._id)) ids unf hnd hids hsub hunf hunfsub]
  rw [List.countP_map]
  apply List.countP_congr
  intro u hu
  have hfr := hfresh u hu
  simp only [Function.comp_apply]
  by_cases h1 : u._id ∈ ids
  · by_cases h2 : u._id ∈ unf
    · simp [h1, h2, favorite_id, mem_unfavorite_iff]
    · simp [h1, h2, favorite_id, mem_favorite]
  · have h2 : u._id ∉ unf := fun h => h1 (hunfsub _ h)
    simp [h1, h2, hfr]

/-- C2: `updateFavoriteCount` writes the number of users whose favorites
contain the id of the article.  From a store whose users have pairwise
different ids and in which nobody has favorited the article, let the `N`
different users `ids` call the favorite route and then the `M` different
users `unf` among them the unfavorite route: the query counts `N - M`
users, `updateFavoriteCount` writes `N - M`, and when a route has run at
all (`N` is not 0) the counter stored by the last route is `N - M`. -/
theorem favoritesCount_after (s : Store) (ids unf : List ObjectId)
    (hnd : (s.users.map (fun u => u._id)).Nodup)
    (hfresh : ∀ u ∈ s.users, s.article._id ∉ u.favorites)
    (hids : ids.Nodup) (hsub : ∀ i ∈ ids, i ∈ s.users.map (fun u => u._id))
    (hunf : unf.Nodup) (hunfsub : ∀ i ∈ unf, i ∈ ids) :
    (∀ (users : List User) (article : Article),
      (article.updateFavoriteCount users).favoritesCount =
        (users.filter (fun u => decide (article._id ∈ u.favorites))).length) ∧
    ((unfavoriteAll (favoriteAll s ids) unf).article.updateFavoriteCount
        (unfavoriteAll (favoriteAll s ids) unf).users).favoritesCount =
      ids.length - unf.length ∧
    (ids ≠ [] →
      (unfavoriteAll (favoriteAll s ids) unf).article.favoritesCount =
        ids.length - unf.length) := by
  have hcount := countFavorites_final s ids unf hnd hfresh hids hsub hunf hunfsub
  have hf := favoriteAll_spec ids s hnd
  have hnd1 : ((favoriteAll s ids).users.map (fun u => u._id)).Nodup := by
    rw [hf.1, map_ids_congr]
    · exact hnd
    · intro u; split
      · exact favorite_id u _
      · rfl
  have hu := unfavoriteAll_spec unf (favoriteAll s ids) hnd1
  have haid : (unfavoriteAll (favoriteAll s ids) unf).article._id = s.article._id := by
    rw [hu.2, hf.2]
  refine ⟨?_, ?_, ?_⟩
  · intro users article
    simp [Article.updateFavoriteCount, countFavorites, List.countP_eq_length_filter]
  · show countFavorites _ _ = _
    rw [haid]; exact hcount
  · intro hne
    cases ids with
    | nil => exact absurd rfl hne
    | cons i rest =>
      have h1 := postFavorite_inStep s i (Or.inl (hsub i (List.mem_cons_self _ _)))
      have h2 := favoriteAll_inStep rest _ h1
      have h3 := unfavoriteAll_inStep unf (favoriteAll s (i :: rest)) h2
      rw [h3, haid]; exact hcount

theorem favoritesCount_after_witness :
    (unfavoriteAll (favoriteAll store0 [2, 3, 1]) [3]).article.favoritesCount = 2 :=
  (favoritesCount_after store0 [2, 3, 1] [3] (by decide) (by decide) (by decide) (by decide)
    (by decide) (by decide)).2.2 (by decide)

/-! ## The token header -/

theorem splitChars_no_sep (sep : Char) (cs : List Char) (h : sep ∉ cs) :
    splitChars sep cs = [cs] := by
  induction cs with
  | nil => rfl
  | cons c cs ih =>
    have hc : c ≠ sep := fun e => h (by simp [e])
    have hcs : sep ∉ cs := fun e => h (by simp [e])
    simp [splitChars, hc, ih hcs]

theorem splitChars_append_sep (sep : Char) (w rest : List Char) (h : sep ∉ w) :
    splitChars sep (w ++ sep :: rest) = w :: splitChars sep rest := by
  induction w with
  | nil => simp [splitChars]
  | cons c cs ih =>
    have hc : c ≠ sep := fun e => h (by simp [e])
    have hcs : sep ∉ cs := fun e => h (by simp [e])
    simp [splitChars, hc, ih hcs]

theorem jsSplit_token (t : String) (hs : ' ' ∉ t.data) :
    jsSplit ("Token " ++ t) ' ' = ["Token", t] := by
  have hd : ("Token " ++ t).data = ['T', 'o', 'k', 'e', 'n'] ++ ' ' :: t.data := by
    rw [String.data_append]; rfl
  unfold jsSplit
  rw [hd, splitChars_append_sep _ _ _ (by decide), splitChars_no_sep _ _ hs]
  rfl

/-- C7: `getTokenFromHeader` returns `null` when the header is absent or
empty and when its first space-separated piece is not exactly `Token`
(so for `Bearer abc` and for `token abc`); for the header `Token ` followed
by a string `t` without a space it returns exactly `t`; and whenever it
returns a string at all the first piece of the header is `Token`. -/
theorem getTokenFromHeader_spec :
    getTokenFromHeader none = TokenResult.null ∧
    getTokenFromHeader (some "") = TokenResult.null ∧
    (∀ h : String, (jsSplit h ' ')[0]? ≠ some "Token" →
      getTokenFromHeader (some h) = TokenResult.null) ∧
    getTokenFromHeader (some "Bearer abc") = TokenResult.null ∧
    getTokenFromHeader (some "token abc") = TokenResult.null ∧
    (∀ t : String, ' ' ∉ t.data →
      getTokenFromHeader (some ("Token " ++ t)) = TokenResult.string t) ∧
    (∀ (a : Option String) (t : String), getTokenFromHeader a = TokenResult.string t →
      ∃ h, a = some h ∧ (jsSplit h ' ')[0]? = some "Token") := by
  refine ⟨rfl, by decide, ?_, by decide, by decide, ?_, ?_⟩
  · intro h hh
    simp [getTokenFromHeader, hh]
  · intro t hs
    have hne : "Token " ++ t ≠ "" := by
      intro h
      have := congrArg String.length h
      simp at this
      exact absurd this.1 (by decide)
    unfold getTokenFromHeader
    simp [jsSplit_token t hs, hne]
  · intro a t h
    cases a with
    | none => simp [getTokenFromHeader] at h
    | some s =>
      refine ⟨s, rfl, ?_⟩
      unfold getTokenFromHeader at h
      by_contra hc
      simp [hc] at h

theorem getTokenFromHeader_spec_witness :
    getTokenFromHeader (some ("Token " ++ "abc.def")) = TokenResult.string "abc.def" ∧
    getTokenFromHeader (some "Basic abc") = TokenResult.null :=
  ⟨getTokenFromHeader_spec.2.2.2.2.2.1 "abc.def" (by decide),
   getTokenFromHeader_spec.2.2.1 "Basic abc" (by decide)⟩

/-! ## Slugs -/

theorem digitChar36_base36 (d : Nat) (h : d < 36) :
    isBase36Char (digitChar36 d) = true ∧ (digitChar36 d).toLower = digitChar36 d := by
  interval_cases d <;> decide

theorem toDigits36_chars (fuel : Nat) : ∀ (n : Nat) (acc : List Char),
    ∀ c ∈ toDigits36 fuel n acc, c ∈ acc ∨ ∃ d, d < 36 ∧ c = digitChar36 d := by
  induction fuel with
  | zero => intro n acc c hc; exact Or.inl hc
  | succ f ih =>
    intro n acc c hc
    unfold toDigits36 at hc
    simp only at hc
    have hd : n % 36 < 36 := Nat.mod_lt _ (by decide)
    split at hc
    · rcases List.mem_cons.1 hc with h | h
      · exact Or.inr ⟨_, hd, h⟩
      · exact Or.inl h
    · rcases ih _ _ c hc with h | h
      · rcases List.mem_cons.1 h with h | h
        · exact Or.inr ⟨_, hd, h⟩
        · exact Or.inl h
      · exact Or.inr h

theorem toDigits36_length_le (fuel : Nat) : ∀ (k n : Nat) (acc : List Char),
    n < 36 ^ (k + 1) → (toDigits36 fuel n acc).length ≤ k + 1 + acc.length := by
  induction fuel with
  | zero => intro k n acc _; simp [toDigits36]
  | succ f ih =>
    intro k n acc hn
    unfold toDigits36
    simp only
    split
    · simp; omega
    · rename_i hne
      cases k with
      | zero =>
        exfalso; apply hne
        exact Nat.div_eq_of_lt (by simpa using hn)
      | succ k =>
        have h1 : n / 36 < 36 ^ (k + 1) := by
          apply Nat.div_lt_of_lt_mul
          rw [pow_succ] at hn
          omega
        have := ih k (n / 36) (digitChar36 (n % 36) :: acc) h1
        simp at this
        omega

theorem toDigits36_length_ge (fuel : Nat) : ∀ (n : Nat) (acc : List Char),
    acc.length ≤ (toDigits36 fuel n acc).length := by
  induction fuel with
  | zero => intro n acc; simp [toDigits36]
  | succ f ih =>
    intro n acc
    unfold toDigits36
    simp only
    split
    · simp
    · have := ih (n / 36) (digitChar36 (n % 36) :: acc)
      simp at this
      omega

theorem toDigits36_length_eq (k : Nat) : ∀ (fuel n : Nat) (acc : List Char),
    36 ^ k ≤ n → n < 36 ^ (k + 1) → k + 1 ≤ fuel →
    (toDigits36 fuel n acc).length = k + 1 + acc.length := by
  induction k with
  | zero =>
    intro fuel n acc _ hn hf
    obtain ⟨f, rfl⟩ : ∃ f, fuel = f + 1 := ⟨fuel - 1, by omega⟩
    unfold toDigits36
    have : n / 36 = 0 := Nat.div_eq_of_lt (by simpa using hn)
    simp [this]; omega
  | succ k ih =>
    intro fuel n acc hlo hhi hf
    obtain ⟨f, rfl⟩ : ∃ f, fuel = f + 1 := ⟨fuel - 1, by omega⟩
    unfold toDigits36
    have h1 : 36 ^ k ≤ n / 36 := by
      rw [Nat.le_div_iff_mul_le (by decide)]
      rw [pow_succ] at hlo
      exact hlo
    have h2 : n / 36 < 36 ^ (k + 1) := by
      apply Nat.div_lt_of_lt_mul
      rw [pow_succ] at hhi
      omega
    have h3 : ¬ (n / 36 = 0) := by
      have : 0 < 36 ^ k := by positivity
      omega
    simp only [h3, if_false]
    rw [ih f (n / 36) _ h1 h2 (by omega)]
    simp; omega

theorem randomInt_small (num den : Nat) (h31 : num * 36 ^ 6 / den < 2 ^ 31) :
    randomInt num den = ((num * 36 ^ 6 / den : Nat) : Int) := by
  unfold randomInt toInt32
  simp only
  have h0 : (0 : Int) ≤ ((num * 36 ^ 6 / den : Nat) : Int) := Int.ofNat_nonneg _
  have h1 : ((num * 36 ^ 6 / den : Nat) : Int) < 2 ^ 31 := by exact_mod_cast h31
  have hm : ((num * 36 ^ 6 / den : Nat) : Int) % 2 ^ 32 = ((num * 36 ^ 6 / den : Nat) : Int) :=
    Int.emod_eq_of_lt h0 (by omega)
  rw [hm]
  split
  · omega
  · rfl

theorem slugSuffix_small (num den : Nat) (h31 : num * 36 ^ 6 / den < 2 ^ 31) :
    slugSuffix num den = natToString36 (num * 36 ^ 6 / den) := by
  unfold slugSuffix
  rw [randomInt_small num den h31]
  unfold intToString36
  have h0 : ¬ (((num * 36 ^ 6 / den : Nat) : Int) < 0) :=
    not_lt.2 (Int.ofNat_nonneg _)
  simp only [h0, if_false, Int.natAbs_ofNat]

theorem natToString36_props (n : Nat) (hn : n < 36 ^ 6) :
    1 ≤ (natToString36 n).length ∧ (natToString36 n).length ≤ 6 ∧
    (∀ c ∈ natToString36 n, isBase36Char c = true) ∧
    (natToString36 n).map Char.toLower = natToString36 n ∧
    (36 ^ 5 ≤ n → (natToString36 n).length = 6) := by
  unfold natToString36
  have hch := toDigits36_chars (n + 1) n []
  refine ⟨?_, ?_, ?_, ?_, ?_⟩
  · have : toDigits36 (n + 1) n [] =
        if n / 36 = 0 then [digitChar36 (n % 36)]
        else toDigits36 n (n / 36) [digitChar36 (n % 36)] := rfl
    rw [this]
    split
    · simp
    · have := toDigits36_length_ge n (n / 36) [digitChar36 (n % 36)]
      simpa using this
  · have := toDigits36_length_le (n + 1) 5 n [] hn
    simpa using this
  · intro c hc
    rcases hch c hc with h | ⟨d, hd, rfl⟩
    · cases h
    · exact (digitChar36_base36 d hd).1
  · conv_rhs => rw [← List.map_id (toDigits36 (n + 1) n [])]
    apply List.map_congr_left
    intro c hc
    rcases hch c hc with h | ⟨d, hd, rfl⟩
    · cases h
    · exact (digitChar36_base36 d hd).2
  · intro h5
    have := toDigits36_length_eq 5 (n + 1) n [] h5 hn (by
      have : 6 ≤ 36 ^ 5 := by norm_num
      omega)
    simpa using this

theorem randomScaled_lt (num den : Nat) (hr : num < den) : num * 36 ^ 6 / den < 36 ^ 6 := by
  apply Nat.div_lt_of_lt_mul
  exact Nat.mul_lt_mul_of_pos_right hr (by norm_num)

theorem toLowerCase_slug (s : String) (suffix : List Char)
    (hs : suffix.map Char.toLower = suffix) :
    toLowerCase (s ++ "-" ++ String.mk suffix) =
      String.mk ((toLowerCase s).data ++ '-' :: suffix) := by
  unfold toLowerCase
  simp only [String.data_append, List.map_append, hs]
  congr 1
  simp

/-- For the random value 127/128 the product exceeds `2^31 - 1`, the cut to
32 bits makes it negative and the suffix starts with a minus sign. -/
theorem slugSuffix_wraps :
    randomInt 127 128 = -2135191072 ∧
    slugSuffix 127 128 = ['-', 'z', 'b', '8', 'j', 'z', '4'] := by
  decide

/-- C3, as stated, fails: for the random value 1/64 the suffix is `k9000`,
five characters, and the slug of "My Title!" is `my-title-k9000`; for the
random value 0 the suffix is the single character `0`. -/
theorem slugify_suffix_short :
    slugSuffix 1 64 = ['k', '9', '0', '0', '0'] ∧ (slugSuffix 1 64).length ≠ 6 ∧
    draft.title = some "My Title!" ∧
    draft.slugify slugModel 1 64 = Except.ok { draft with slug := some "my-title-k9000" } ∧
    slugSuffix 0 1 = ['0'] ∧
    draft.slugify slugModel 0 1 = Except.ok { draft with slug := some "my-title-0" } := by
  refine ⟨by decide, by decide, rfl, ?_, by decide, ?_⟩
  · rfl
  · rfl

/-- C3, amended: for a title and a random value `r = num / den` in `[0, 1)`
with `r * 36^6 < 2^31`, `slugify` sets the slug to the lower-cased
`slug(title)`, a dash and a suffix of 1 to 6 characters of `[0-9a-z]`; the
suffix has exactly 6 characters when `r * 36^6` is at least `36^5`.  For
the title "My Title!" the slug is `my-title-` followed by that suffix. -/
theorem slugify_spec (slug : String → String) (title : String) (num den : Nat) (a : Article)
    (ht : a.title = some title) (hr : num < den) (h31 : num * 36 ^ 6 / den < 2 ^ 31) :
    ∃ suffix : List Char,
      a.slugify slug num den = Except.ok { a with
        slug := some (String.mk ((toLowerCase (slug title)).data ++ '-' :: suffix)) } ∧
      1 ≤ suffix.length ∧ suffix.length ≤ 6 ∧
      (∀ c ∈ suffix, isBase36Char c = true) ∧
      (36 ^ 5 ≤ num * 36 ^ 6 / den → suffix.length = 6) ∧
      (title = "My Title!" →
        a.slugify slugModel num den = Except.ok { a with
          slug := some (String.mk ("my-title-".data ++ suffix)) }) := by
  have hp := natToString36_props _ (randomScaled_lt num den hr)
  rw [← slugSuffix_small num den h31] at hp
  refine ⟨slugSuffix num den, ?_, hp.1, hp.2.1, hp.2.2.1, hp.2.2.2.2, ?_⟩
  · unfold Article.slugify
    rw [ht]
    simp only
    rw [toLowerCase_slug _ _ hp.2.2.2.1]
  · intro htitle
    subst htitle
    unfold Article.slugify
    rw [ht]
    simp only
    rw [toLowerCase_slug _ _ hp.2.2.2.1]
    rfl

theorem slugify_spec_witness :
    ∃ suffix : List Char,
      draft.slugify slugModel 1 3 = Except.ok { draft with
        slug := some (String.mk ("my-title-".data ++ suffix)) } ∧ suffix.length = 6 := by
  obtain ⟨suffix, _, _, _, _, h6, ht⟩ :=
    slugify_spec slugModel "My Title!" 1 3 draft rfl (by decide) (by decide)
  exact ⟨suffix, ht rfl, h6 (by decide)⟩

theorem toLowerCase_dash_ne_empty (s t : String) : toLowerCase (s ++ "-" ++ t) ≠ "" := by
  intro h
  have h1 : ((s ++ "-" ++ t).data.map Char.toLower) = [] := congrArg String.data h
  rw [List.map_eq_nil_iff, String.data_append, String.data_append] at h1
  have h2 : "-".data = ['-'] := rfl
  rw [h2] at h1
  simp at h1

theorem preValidate_of_slug (slug : String → String) (num den : Nat) (a : Article)
    (s : String) (hs : a.slug = some s) (hne : s ≠ "") :
    a.preValidate slug num den = Except.ok a := by
  unfold Article.preValidate
  have : ¬ (a.slug = none ∨ a.slug = some "") := by
    rw [hs]; simp [hne]
  rw [if_neg this]

/-- C9: for an article with a non-empty slug the pre-validate hook returns
the article as it is, and `PUT /:article` answers 403 or saves an article
with the same slug, with the new title when one was sent.  For an article
whose slug is absent (or empty) every successful save leaves a non-empty
slug, and the save succeeds when the article has a title. -/
theorem slug_assigned_once (slug : String → String) (num den : Nat) (a : Article)
    (s : String) (hs : a.slug = some s) (hne : s ≠ "") :
    a.preValidate slug num den = Except.ok a ∧
    (∀ (payloadId : ObjectId) (upd : ArticleUpdate),
      (a.author ≠ payloadId ∧
        putArticle slug num den payloadId upd a = PutResponse.sendStatus 403) ∨
      (a.author = payloadId ∧ ∃ saved, putArticle slug num den payloadId upd a =
          PutResponse.json saved ∧ saved.slug = some s ∧ saved._id = a._id ∧
          (∀ t, upd.title = some t → saved.title = some t))) ∧
    (∀ b : Article, (b.slug = none ∨ b.slug = some "") →
      (∀ saved, b.save slug num den = Except.ok saved →
        ∃ s1, saved.slug = some s1 ∧ s1 ≠ "") ∧
      (∀ t, b.title = some t → ∃ saved, b.save slug num den = Except.ok saved)) := by
  refine ⟨preValidate_of_slug slug num den a s hs hne, ?_, ?_⟩
  · intro payloadId upd
    by_cases hauth : a.author = payloadId
    · right
      refine ⟨hauth, ?_⟩
      unfold putArticle
      rw [if_pos hauth]
      simp only [Article.save]
      rcases upd with ⟨ut, ud, ub⟩
      cases ut <;> cases ud <;> cases ub <;>
        (simp only []
         rw [preValidate_of_slug slug num den _ s (by simpa using hs) hne]
         exact ⟨_, rfl, by simpa using hs, rfl, by simp⟩)
    · left
      refine ⟨hauth, ?_⟩
      unfold putArticle
      rw [if_neg hauth]
  · intro b hb
    constructor
    · intro saved hsaved
      unfold Article.save Article.preValidate at hsaved
      rw [if_pos hb] at hsaved
      unfold Article.slugify at hsaved
      cases hbt : b.title with
      | none => rw [hbt] at hsaved; cases hsaved
      | some t =>
        rw [hbt] at hsaved
        simp only [Except.ok.injEq] at hsaved
        subst hsaved
        exact ⟨_, rfl, toLowerCase_dash_ne_empty _ _⟩
    · intro t ht
      unfold Article.save Article.preValidate
      rw [if_pos hb]
      unfold Article.slugify
      rw [ht]
      exact ⟨_, rfl⟩

theorem slug_assigned_once_witness :
    hello.preValidate slugModel 1 3 = Except.ok hello ∧
    (∃ saved, draft.save slugModel 1 3 = Except.ok saved) :=
  ⟨(slug_assigned_once slugModel 1 3 hello "hello-world-1a2b3c" rfl (by decide)).1,
   ((slug_assigned_once slugModel 1 3 hello "hello-world-1a2b3c" rfl (by decide)).2.2
      draft (Or.inl rfl)).2 "My Title!" rfl⟩

/-! ## Passwords -/

theorem hexChars_length (bytes : List Byte) : (hexChars bytes).length = 2 * bytes.length := by
  induction bytes with
  | nil => rfl
  | cons b bs ih => simp [hexChars, ih]; omega

theorem toHex_length (bytes : List Byte) : (toHex bytes).length = 2 * bytes.length := by
  simp [toHex, String.length, hexChars_length]

theorem toyCrypto_lawful : toyCrypto.Lawful := by
  constructor
  · intro n; simp [toyCrypto]
  · intro password salt iterations keylen digest; simp [toyCrypto]

theorem setPassword_lengths (c : Crypto) (hc : c.Lawful) (u : User) (password : String) :
    (u.setPassword c password).salt.length = 32 ∧
    (u.setPassword c password).hash.length = 1024 := by
  simp [User.setPassword, toHex_length, hc.1, hc.2]

/-- C5: after `setPassword(p)` has stored salt and hash, `validPassword(p)`
returns `true`, whatever the random salt and the key derivation are. -/
theorem validPassword_setPassword (c : Crypto) (u : User) (password : String) :
    (u.setPassword c password).validPassword c password = true := by
  simp [User.setPassword, User.validPassword]

/-- C6, as stated, fails on the output length: the derived key has 512
bytes, which is 4096 bits, and the stored hash has 1024 hexadecimal
characters, not 128. -/
theorem setPassword_hash_not_128 :
    toyCrypto.Lawful ∧
    (toyCrypto.pbkdf2Sync "p@ss1234" anaRegistered.salt 10000 512 "sha512").length * 8 = 4096 ∧
    anaRegistered.hash.length = 1024 ∧ anaRegistered.hash.length ≠ 128 := by
  have h := setPassword_lengths toyCrypto toyCrypto_lawful ana "p@ss1234"
  have h2 : anaRegistered.hash.length = 1024 := h.2
  refine ⟨toyCrypto_lawful, ?_, h2, ?_⟩
  · rw [toyCrypto_lawful.2]
  · rw [h2]; decide

/-- C6, amended: `setPassword` takes 16 bytes from the random source and
stores them hex-encoded as the salt (32 characters), and stores as the hash
the hex encoding of the key derived from password and salt with 10000
iterations, a key length of 512 bytes (4096 bits, 1024 hexadecimal
characters) and the digest `sha512`. -/
theorem setPassword_spec (c : Crypto) (hc : c.Lawful) (u : User) (password : String) :
    (u.setPassword c password).salt = toHex (c.randomBytes 16) ∧
    (c.randomBytes 16).length = 16 ∧
    (u.setPassword c password).salt.length = 32 ∧
    (u.setPassword c password).hash =
      toHex (c.pbkdf2Sync password (u.setPassword c password).salt 10000 512 "sha512") ∧
    (c.pbkdf2Sync password (u.setPassword c password).salt 10000 512 "sha512").length = 512 ∧
    (u.setPassword c password).hash.length = 1024 := by
  have h := setPassword_lengths c hc u password
  exact ⟨rfl, hc.1 16, h.1, rfl, hc.2 _ _ _ _ _, h.2⟩

theorem setPassword_spec_witness :
    toyCrypto.Lawful ∧ anaRegistered.salt.length = 32 ∧ anaRegistered.hash.length = 1024 :=
  ⟨toyCrypto_lawful, (setPassword_spec toyCrypto toyCrypto_lawful ana "p@ss1234").2.2.1,
   (setPassword_spec toyCrypto toyCrypto_lawful ana "p@ss1234").2.2.2.2.2⟩

/-! ## Login -/

theorem login_unknown_email (c : Crypto) (users : List User) (email password : String)
    (he : email ≠ "") (hp : password ≠ "") (hnone : findOne users email = none) :
    localVerify c users email password =
      Done.error (JsError.typeError "Cannot read property 'validPassword' of null") ∧
    login c users (some email) (some password) =
      LoginResponse.next (JsError.typeError "Cannot read property 'validPassword' of null") := by
  have h1 : localVerify c users email password =
      Done.error (JsError.typeError "Cannot read property 'validPassword' of null") := by
    unfold localVerify
    rw [hnone]
    rfl
  refine ⟨h1, ?_⟩
  unfold login
  simp only [he, hp, if_false, h1]

theorem login_wrong_password (c : Crypto) (users : List User) (email password : String)
    (he : email ≠ "") (hp : password ≠ "") (u : User) (hu : findOne users email = some u)
    (hbad : u.validPassword c password = false) :
    localVerify c users email password =
      Done.fail { errors := [("email or password", "is invalid")] } ∧
    login c users (some email) (some password) =
      LoginResponse.status 422 { errors := [("email or password", "is invalid")] } := by
  have h1 : localVerify c users email password =
      Done.fail { errors := [("email or password", "is invalid")] } := by
    unfold localVerify
    rw [hu]
    simp [verifyThen, callValidPassword, hbad, bind, Except.bind, pure, Except.pure]
  refine ⟨h1, ?_⟩
  unfold login
  simp only [he, hp, if_false, h1]

/-- C4 at a failing input: for an email that no user has, the `console.log`
line calls `validPassword` on `null`, the `TypeError` reaches `done` as an
error and the route calls `next(err)`; for the email of a user and a wrong
password the answer is 422 with the invalid-credentials body.  The two
answers differ. -/
theorem login_unknown_email_throws :
    findOne [anaRegistered] "nobody@example.com" = none ∧
    login toyCrypto [anaRegistered] (some "nobody@example.com") (some "wrong") =
      LoginResponse.next (JsError.typeError "Cannot read property 'validPassword' of null") ∧
    login toyCrypto [anaRegistered] (some "ana@example.com") (some "wrong") =
      LoginResponse.status 422 { errors := [("email or password", "is invalid")] } ∧
    login toyCrypto [anaRegistered] (some "nobody@example.com") (some "wrong") ≠
      login toyCrypto [anaRegistered] (some "ana@example.com") (some "wrong") := by
  refine ⟨by decide, by decide, by decide, by decide⟩

/-! ## Tokens -/

/-- The calendar operations at three instants: 1 March 2019 12:00 UTC,
29 February 2000 and the last millisecond of 1969. -/
theorem calendar_samples :
    (YearFromTime 1551441600000, MonthFromTime 1551441600000, DateFromTime 1551441600000) =
      (2019, 2, 1) ∧
    (YearFromTime 951782400000, MonthFromTime 951782400000, DateFromTime 951782400000) =
      (2000, 1, 29) ∧
    (YearFromTime (-1), MonthFromTime (-1), DateFromTime (-1)) = (1969, 11, 31) := by
  refine ⟨by decide, by decide, by decide⟩

theorem ite_range (c : Prop) [Decidable c] (a b : Int) (ha : 0 ≤ a ∧ a ≤ 11)
    (hb : 0 ≤ b ∧ b ≤ 11) : 0 ≤ (if c then a else b) ∧ (if c then a else b) ≤ 11 := by
  by_cases h : c
  · rw [if_pos h]; exact ha
  · rw [if_neg h]; exact hb

theorem month_range (a : Int) (h0 : 0 ≤ a) (h1 : a ≤ 11) : 0 ≤ a ∧ a ≤ 11 := ⟨h0, h1⟩

theorem MonthFromTime_range (t : Int) : 0 ≤ MonthFromTime t ∧ MonthFromTime t ≤ 11 := by
  unfold MonthFromTime
  generalize DayWithinYear t = d
  generalize InLeapYear t = l
  show 0 ≤ (if d < 31 then (0 : Int) else _) ∧ (if d < 31 then (0 : Int) else _) ≤ 11
  repeat (first | apply ite_range | exact month_range _ (by decide) (by decide))

theorem MakeDay_DateFromTime (t k : Int) :
    MakeDay (YearFromTime t) (MonthFromTime t) (DateFromTime t + k) = Day t + k := by
  have hm := MonthFromTime_range t
  have h1 : MonthFromTime t / 12 = 0 := Int.ediv_eq_zero_of_lt hm.1 (by omega)
  have h2 : MonthFromTime t % 12 = MonthFromTime t := Int.emod_eq_of_lt hm.1 (by omega)
  unfold MakeDay DateFromTime DayWithinYear InLeapYear
  simp only [h1, h2, add_zero]
  ring

theorem setDate_getDate (tza : Int → Bool → Int) (t k : Int) :
    setDate tza t (getDate tza t + k) =
      TimeClip (UTC tza (LocalTime tza t + k * msPerDay)) := by
  unfold setDate getDate
  simp only
  rw [MakeDay_DateFromTime]
  congr 2
  unfold MakeDate Day TimeWithinDay
  have := Int.ediv_add_emod (LocalTime tza t) msPerDay
  linarith

/-- C8, as stated, fails: in the time zone of London a token made on
1 March 2019, 12:00 UTC expires at the same wall-clock time 60 calendar days
later, which is one hour less than 60 times 86400 seconds after now. -/
theorem generateJWT_summer_time :
    (ana.generateJWT londonTZA 1551441600000).exp = some 1556622000 ∧
    ((1551441600000 + 60 * 86400 * 1000) / 1000 : Int) = 1556625600 ∧
    (ana.generateJWT londonTZA 1551441600000).exp ≠
      some ((1551441600000 + 60 * 86400 * 1000) / 1000 : Int) := by
  refine ⟨by decide, by decide, by decide⟩

/-- C8, amended: the claims carry the id and the username of the user, and
`exp` is the time value at which the local clock shows the time of now 60
calendar days later, cut to whole seconds.  When the time zone adjustment
at that local time equals the one at `now` (as in a process running in UTC)
and the result is in the range of time values, `exp` is
`floor((now_ms + 60 * 86400 * 1000) / 1000)`. -/
theorem generateJWT_spec (tza : Int → Bool → Int) (now : Nat) (u : User) :
    (u.generateJWT tza now).id = u._id ∧
    (u.generateJWT tza now).username = u.username ∧
    (u.generateJWT tza now).exp =
      (TimeClip (UTC tza (LocalTime tza now + 60 * msPerDay))).map
        (fun ms => Int.tdiv ms 1000) ∧
    (tza (LocalTime tza now + 60 * msPerDay) false = tza now true →
      now + 60 * 86400 * 1000 ≤ 8640000000000000 →
      (u.generateJWT tza now).exp = some (((now + 60 * 86400 * 1000) / 1000 : Nat) : Int)) := by
  have hexp : (u.generateJWT tza now).exp =
      (TimeClip (UTC tza (LocalTime tza now + 60 * msPerDay))).map
        (fun ms => Int.tdiv ms 1000) := by
    unfold User.generateJWT
    simp only
    rw [setDate_getDate]
  refine ⟨rfl, rfl, hexp, ?_⟩
  intro hz hr
  rw [hexp]
  have hutc : UTC tza (LocalTime tza now + 60 * msPerDay) =
      ((now + 60 * 86400 * 1000 : Nat) : Int) := by
    unfold UTC
    rw [hz]
    unfold LocalTime msPerDay
    push_cast
    ring
  rw [hutc]
  unfold TimeClip
  rw [if_neg (by rw [Int.natAbs_ofNat]; omega)]
  simp only [Option.map_some']
  congr 1

theorem generateJWT_spec_witness :
    (ana.generateJWT utcTZA 1551441600000).exp = some 1556625600 ∧
    (ana.generateJWT londonTZA 1545069339000).exp = some 1550253339 :=
  ⟨(generateJWT_spec utcTZA 1551441600000 ana).2.2.2 (by decide) (by decide),
   (generateJWT_spec londonTZA 1545069339000 ana).2.2.2 (by decide) (by decide)⟩

end Conduit
